import Mathlib

/-!
Verification development for the mobius-forms-serverless repository: a set of
stateless HTTP handlers (createQuestion, editQuestion, addQuestionTranslation,
getAllQuestions, createResponse, getResponse) backed by a relational store,
plus a lazily memoized connection pool (config/db.ts).

The relational store is shallowly embedded as lists of rows (one list per
table, `Store`), SQL statements become list operations, and each handler
becomes a pure Lean function from a request and an initial store to a result
record carrying the HTTP status, the response payload fields, the resulting
store, and the number of SQL statements executed.  A handler that runs inside
a transaction rolls back by returning the initial store unchanged.  Ids are
modeled as `Nat` (SQL identity values); a JSON field that may be absent is an
`Option`; JavaScript falsiness is `none`, `some 0` for numbers and `some ""`
for strings.
-/

namespace MobiusForms

/-- JS truthiness for a numeric field: `undefined`/`null` and `0` are falsy. -/
def natTruthy : Option Nat → Bool
  | none => false
  | some n => n != 0

/-- JS truthiness for a string field: `undefined`/`null` and `""` are falsy. -/
def strTruthy : Option String → Bool
  | none => false
  | some s => s != ""

/-- The JS idiom `x || null` / `x || undefined` on a nullable string column:
an empty string collapses to an absent value. -/
def jsFalsyStrToNull : Option String → Option String
  | none => none
  | some s => if s == "" then none else some s

/-! ### Comma join / split (createResponse stores `selected_options.join(',')`,
getResponse reads it back with `.split(',')`) -/

/-- `Array.prototype.join(',')` of JavaScript, modeled on `List String`:
`[] → ""`, one element is itself, otherwise elements separated by commas. -/
def joinComma : List String → String
  | [] => ""
  | [x] => x
  | x :: xs => x ++ "," ++ joinComma xs

/-- `String.prototype.split(',')` of JavaScript at the character level:
`"" → [""]`, and each comma starts a new (possibly empty) chunk. -/
def splitCharsComma : List Char → List (List Char)
  | [] => [[]]
  | c :: cs =>
    if c = ',' then [] :: splitCharsComma cs
    else
      match splitCharsComma cs with
      | [] => [[c]]
      | p :: ps => (c :: p) :: ps

/-- `String.prototype.split(',')` on a Lean `String`. -/
def splitComma (s : String) : List String :=
  (splitCharsComma s.data).map (fun cs => String.mk cs)

/-- createResponse's stored value for the `selected_options` column:
`selected_options ? selected_options.join(',') : null`.  A JS array is always
truthy, so an empty list is stored as the empty string, not as NULL. -/
def storeSelectedOptions : Option (List String) → Option String
  | none => none
  | some l => some (joinComma l)

/-- getResponse's read of the `selected_options` column:
`row.selected_options ? row.selected_options.split(',') : undefined`.
NULL and the empty string are both falsy and yield an absent field. -/
def readSelectedOptions : Option String → Option (List String)
  | none => none
  | some s => if s == "" then none else some (splitComma s)

theorem splitCharsComma_ne_nil (cs : List Char) : splitCharsComma cs ≠ [] := by
  induction cs with
  | nil => simp [splitCharsComma]
  | cons c cs ih =>
    by_cases h : c = ','
    · simp [splitCharsComma, h]
    · simp only [splitCharsComma, if_neg h]
      cases hs : splitCharsComma cs with
      | nil => simp
      | cons p ps => simp

theorem splitCharsComma_no_comma (a : List Char) (h : ',' ∉ a) :
    splitCharsComma a = [a] := by
  induction a with
  | nil => simp [splitCharsComma]
  | cons c cs ih =>
    have hc : c ≠ ',' := by
      intro hc; exact h (hc ▸ List.mem_cons_self c cs)
    have hcs : ',' ∉ cs := fun hm => h (List.mem_cons_of_mem c hm)
    simp only [splitCharsComma, if_neg hc, ih hcs]

theorem splitCharsComma_append (a b : List Char) (h : ',' ∉ a) :
    splitCharsComma (a ++ ',' :: b) = a :: splitCharsComma b := by
  induction a with
  | nil => simp [splitCharsComma]
  | cons c cs ih =>
    have hc : c ≠ ',' := by
      intro hc; exact h (hc ▸ List.mem_cons_self c cs)
    have hcs : ',' ∉ cs := fun hm => h (List.mem_cons_of_mem c hm)
    simp only [List.cons_append, splitCharsComma, if_neg hc, List.append_eq, ih hcs]

/-- Number of chunks produced by a comma split: one more than the comma count. -/
theorem splitCharsComma_length (cs : List Char) :
    (splitCharsComma cs).length = cs.count ',' + 1 := by
  induction cs with
  | nil => simp [splitCharsComma]
  | cons c cs ih =>
    by_cases h : c = ','
    · subst h
      simp [splitCharsComma, ih, List.count_cons]
    · simp only [splitCharsComma, if_neg h]
      cases hs : splitCharsComma cs with
      | nil => exact absurd hs (splitCharsComma_ne_nil cs)
      | cons p ps =>
        have := ih
        rw [hs] at this
        simp only [List.length_cons] at this ⊢
        rw [List.count_cons]
        simp [h, this]

theorem joinComma_cons_cons (x y : String) (ys : List String) :
    (joinComma (x :: y :: ys)).data = x.data ++ ',' :: (joinComma (y :: ys)).data := by
  show ((x ++ "," ++ joinComma (y :: ys))).data = _
  rw [String.data_append, String.data_append]
  simp

/-- Splitting the comma join of comma-free labels recovers the labels. -/
theorem splitCharsComma_joinComma (l : List String) (hne : l ≠ [])
    (hcf : ∀ x ∈ l, ',' ∉ x.data) :
    splitCharsComma (joinComma l).data = l.map String.data := by
  induction l with
  | nil => exact absurd rfl hne
  | cons x xs ih =>
    cases xs with
    | nil =>
      show splitCharsComma x.data = [x.data]
      exact splitCharsComma_no_comma x.data (hcf x (List.mem_cons_self x []))
    | cons y ys =>
      rw [joinComma_cons_cons]
      rw [splitCharsComma_append x.data _ (hcf x (List.mem_cons_self x (y :: ys)))]
      rw [ih (by simp) (fun z hz => hcf z (List.mem_cons_of_mem x hz))]
      simp

/-- Comma count of a join: the per-label comma counts plus the separators. -/
theorem joinComma_count (l : List String) (hne : l ≠ []) :
    (joinComma l).data.count ',' =
      (l.map (fun x => x.data.count ',')).sum + (l.length - 1) := by
  induction l with
  | nil => exact absurd rfl hne
  | cons x xs ih =>
    cases xs with
    | nil => simp [joinComma]
    | cons y ys =>
      rw [joinComma_cons_cons, List.count_append, List.count_cons]
      rw [ih (by simp)]
      simp only [List.map_cons, List.sum_cons, List.length_cons]
      simp
      omega

/-- The round-trip behaviour of `selected_options` between createResponse and
getResponse: exact for a non-empty list of non-empty comma-free labels; a
label containing a comma inflates the list; empty list and absent field both
read back as absent. -/
theorem readSelectedOptions_some_ne (s : String) (h : s ≠ "") :
    readSelectedOptions (some s) = some (splitComma s) := by
  have : readSelectedOptions (some s) = if s == "" then none else some (splitComma s) := rfl
  rw [this, if_neg (by simpa using h)]

theorem joinComma_data_ne_nil_of_mem_ne (l : List String)
    (h : ∃ x ∈ l, x.data ≠ []) : (joinComma l).data ≠ [] := by
  obtain ⟨x, hx, hxd⟩ := h
  cases l with
  | nil => simp at hx
  | cons a as =>
    cases as with
    | nil =>
      have : x = a := by simpa using hx
      subst this
      exact hxd
    | cons b bs =>
      rw [joinComma_cons_cons]
      intro hcontra
      rcases List.append_eq_nil.mp hcontra with ⟨_, h2⟩
      simp at h2

theorem joinComma_ne_empty_of_data (l : List String)
    (h : (joinComma l).data ≠ []) : joinComma l ≠ "" := by
  intro hc; apply h; rw [hc]

theorem readSelectedOptions_store (l : List String) :
    ((l ≠ [] → (∀ x ∈ l, x.data ≠ [] ∧ ',' ∉ x.data) →
        readSelectedOptions (storeSelectedOptions (some l)) = some l)
     ∧ ((∃ x ∈ l, ',' ∈ x.data) →
        ∃ l2, readSelectedOptions (storeSelectedOptions (some l)) = some l2 ∧
          l.length < l2.length)) := by
  constructor
  · intro hne hlab
    have hcf : ∀ x ∈ l, ',' ∉ x.data := fun x hx => (hlab x hx).2
    have hjoin : (joinComma l).data ≠ [] := by
      apply joinComma_data_ne_nil_of_mem_ne
      cases l with
      | nil => exact absurd rfl hne
      | cons a as => exact ⟨a, List.mem_cons_self a as, (hlab a (List.mem_cons_self a as)).1⟩
    show readSelectedOptions (some (joinComma l)) = some l
    rw [readSelectedOptions_some_ne _ (joinComma_ne_empty_of_data l hjoin)]
    congr 1
    unfold splitComma
    rw [splitCharsComma_joinComma l hne hcf, List.map_map]
    exact List.map_id'' (fun s => rfl) l
  · rintro ⟨x, hx, hcx⟩
    have hne : l ≠ [] := by rintro rfl; simp at hx
    have hsum : 1 ≤ (l.map (fun x => x.data.count ',')).sum := by
      have h1 : 1 ≤ x.data.count ',' := List.count_pos_iff.mpr hcx
      calc 1 ≤ x.data.count ',' := h1
        _ ≤ (l.map (fun x => x.data.count ',')).sum :=
          List.le_sum_of_mem (List.mem_map_of_mem _ hx)
    have hcount : 1 ≤ (joinComma l).data.count ',' := by
      rw [joinComma_count l hne]; omega
    have hjoin : (joinComma l).data ≠ [] := by
      intro h; rw [h] at hcount; simp at hcount
    refine ⟨splitComma (joinComma l), ?_, ?_⟩
    · exact readSelectedOptions_some_ne _ (joinComma_ne_empty_of_data l hjoin)
    · show l.length < (splitComma (joinComma l)).length
      unfold splitComma
      rw [List.length_map, splitCharsComma_length, joinComma_count l hne]
      have hl : 1 ≤ l.length := by
        cases l with
        | nil => exact absurd rfl hne
        | cons a as => simp
      omega

/-! ### The relational store

One list per table of the external schema.  `nextId` models the SQL identity
counter returned by `OUTPUT INSERTED.id`; every insert consumes it. -/

structure UserRow where
  id : Nat
  email : String
deriving DecidableEq

structure FormRow where
  id : Nat
  user_id : Nat
  category : String
deriving DecidableEq

structure FormTranslationRow where
  id : Nat
  form_id : Nat
  language : String
deriving DecidableEq

/-- `questions`: `position` and `image_urls` are nullable columns. -/
structure QuestionRow where
  id : Nat
  description : String
  question_type : String
  required : Bool
  position : Option Int
  image_urls : Option String
deriving DecidableEq

structure QuestionTranslationRow where
  id : Nat
  question_id : Nat
  language : String
  question_text : String
deriving DecidableEq

structure QuestionOptionRow where
  id : Nat
  question_id : Nat
  position : Option Int
deriving DecidableEq

structure QuestionOptionTranslationRow where
  option_id : Nat
  language : String
  option_text : String
deriving DecidableEq

/-- `form_question_translations`: the linking row; `position` is nullable and
only some writers fill it. -/
structure FormQuestionTranslationRow where
  form_translation_id : Nat
  question_translation_id : Nat
  position : Option Int
deriving DecidableEq

structure ResponseRow where
  id : Nat
  form_id : Nat
  submitted_at : String
deriving DecidableEq

structure AnswerRow where
  response_id : Nat
  question_id : Nat
  answer_text : Option String
  selected_options : Option String
  file_url : Option String
deriving DecidableEq

structure Store where
  users : List UserRow
  forms : List FormRow
  form_translations : List FormTranslationRow
  questions : List QuestionRow
  question_translations : List QuestionTranslationRow
  question_options : List QuestionOptionRow
  question_option_translations : List QuestionOptionTranslationRow
  form_question_translations : List FormQuestionTranslationRow
  responses : List ResponseRow
  answers : List AnswerRow
  nextId : Nat
deriving DecidableEq

/-- `JSON.stringify` of a string array, as used for the `image_urls` column
(escaping of special characters inside the urls is not modeled). -/
def jsonEncodeList (l : List String) : String :=
  "[" ++ String.intercalate "," (l.map (fun s => "\"" ++ s ++ "\"")) ++ "]"

/-! ### Stable sorting by a key

`Array.prototype.sort` with the comparator `(a, b) => a.position - b.position`
is, per the ECMAScript specification (ES2019 onwards), a stable sort by the
numeric key.  The output of a stable sort is uniquely determined by the key,
so we denote it by an insertion sort that places every element after already
placed key-equal elements. -/

/-- Insert `x` after every already placed element whose key is `≤ key x`. -/
def insertSorted {α β : Type} [LinearOrder β] (k : α → β) (x : α) : List α → List α
  | [] => [x]
  | y :: ys => if k y ≤ k x then y :: insertSorted k x ys else x :: y :: ys

def isortAux {α β : Type} [LinearOrder β] (k : α → β) : List α → List α → List α
  | [], acc => acc
  | x :: xs, acc => isortAux k xs (insertSorted k x acc)

/-- Stable sort by key `k` (the meaning of the JS stable `Array.sort`). -/
def isortK {α β : Type} [LinearOrder β] (k : α → β) (l : List α) : List α :=
  isortAux k l []

/-- A list is sorted by key `k`. -/
def SortedK {α β : Type} [LinearOrder β] (k : α → β) (l : List α) : Prop :=
  List.Pairwise (fun a b => k a ≤ k b) l

theorem insertSorted_perm {α β : Type} [LinearOrder β] (k : α → β) (x : α) (l : List α) :
    (insertSorted k x l).Perm (x :: l) := by
  induction l with
  | nil => exact List.Perm.refl _
  | cons y ys ih =>
    by_cases h : k y ≤ k x
    · simp only [insertSorted, if_pos h]
      exact (List.Perm.cons y ih).trans (List.Perm.swap x y ys)
    · simp only [insertSorted, if_neg h]
      exact List.Perm.refl _

theorem isortAux_perm {α β : Type} [LinearOrder β] (k : α → β) (l : List α) :
    ∀ acc, (isortAux k l acc).Perm (l ++ acc) := by
  induction l with
  | nil => intro acc; simp [isortAux]
  | cons x xs ih =>
    intro acc
    simp only [isortAux]
    refine ((ih _).trans (List.Perm.append_left xs (insertSorted_perm k x acc))).trans ?_
    exact List.perm_middle

theorem isortK_perm {α β : Type} [LinearOrder β] (k : α → β) (l : List α) :
    (isortK k l).Perm l := by
  have := isortAux_perm k l []
  simpa [isortK] using this

theorem insertSorted_sorted {α β : Type} [LinearOrder β] (k : α → β) (x : α)
    {l : List α} (h : SortedK k l) : SortedK k (insertSorted k x l) := by
  induction l with
  | nil => exact List.pairwise_singleton _ _
  | cons y ys ih =>
    rcases List.pairwise_cons.mp h with ⟨hy, hys⟩
    by_cases hle : k y ≤ k x
    · simp only [insertSorted, if_pos hle]
      refine List.pairwise_cons.mpr ⟨?_, ih hys⟩
      intro z hz
      have hz2 : z ∈ x :: ys := (insertSorted_perm k x ys).mem_iff.mp hz
      rcases List.mem_cons.mp hz2 with rfl | hz3
      · exact hle
      · exact hy z hz3
    · simp only [insertSorted, if_neg hle]
      have hxy : k x ≤ k y := le_of_lt (lt_of_not_le hle)
      refine List.pairwise_cons.mpr ⟨?_, h⟩
      intro z hz
      rcases List.mem_cons.mp hz with hz | hz
      · subst hz; exact hxy
      · exact le_trans hxy (hy z hz)

theorem isortAux_sorted {α β : Type} [LinearOrder β] (k : α → β) (l : List α) :
    ∀ acc, SortedK k acc → SortedK k (isortAux k l acc) := by
  induction l with
  | nil => intro acc h; exact h
  | cons x xs ih => intro acc h; exact ih _ (insertSorted_sorted k x h)

theorem isortK_sorted {α β : Type} [LinearOrder β] (k : α → β) (l : List α) :
    SortedK k (isortK k l) :=
  isortAux_sorted k l [] List.Pairwise.nil

theorem sorted_filter_eq_nil {α β : Type} [LinearOrder β] (k : α → β) {y : α}
    {ys : List α} (h : SortedK k (y :: ys)) {p : β} (hp : p < k y) :
    (y :: ys).filter (fun z => decide (k z = p)) = [] := by
  refine List.filter_eq_nil_iff.mpr ?_
  intro a ha
  rcases List.pairwise_cons.mp h with ⟨hy, _⟩
  rcases List.mem_cons.mp ha with ha | ha
  · subst ha; simp only [decide_eq_true_eq]; exact fun hc => absurd hc.symm (ne_of_lt hp)
  · have : k y ≤ k a := hy a ha
    simp only [decide_eq_true_eq]
    intro hc
    exact absurd (hc ▸ this) (not_le_of_lt hp)

theorem insertSorted_filter {α β : Type} [LinearOrder β] (k : α → β) (x : α)
    {l : List α} (h : SortedK k l) (p : β) :
    (insertSorted k x l).filter (fun z => decide (k z = p))
      = l.filter (fun z => decide (k z = p)) ++ (if k x = p then [x] else []) := by
  induction l with
  | nil =>
    by_cases hx : k x = p <;> simp [insertSorted, List.filter, hx]
  | cons y ys ih =>
    rcases List.pairwise_cons.mp h with ⟨hy, hys⟩
    by_cases hle : k y ≤ k x
    · simp only [insertSorted, if_pos hle]
      rw [List.filter_cons, List.filter_cons, ih hys]
      by_cases hyp : k y = p
      · simp [hyp]
      · simp [hyp]
    · have hlt : k x < k y := lt_of_not_le hle
      simp only [insertSorted, if_neg hle]
      rw [List.filter_cons]
      by_cases hxp : k x = p
      · rw [sorted_filter_eq_nil k h (hxp ▸ hlt)]
        simp [hxp]
      · simp [hxp]

theorem isortAux_filter {α β : Type} [LinearOrder β] (k : α → β) (l : List α) (p : β) :
    ∀ acc, SortedK k acc →
      (isortAux k l acc).filter (fun z => decide (k z = p))
        = acc.filter (fun z => decide (k z = p)) ++ l.filter (fun z => decide (k z = p)) := by
  induction l with
  | nil => intro acc _; simp [isortAux]
  | cons x xs ih =>
    intro acc hacc
    simp only [isortAux]
    rw [ih _ (insertSorted_sorted k x hacc)]
    rw [insertSorted_filter k x hacc p]
    rw [List.filter_cons]
    by_cases hx : k x = p
    · simp [hx]
    · simp [hx]

/-- Stability of the sort: elements sharing any key value keep their relative
order (the key-`p` slice of the output equals the key-`p` slice of the input). -/
theorem isortK_filter {α β : Type} [LinearOrder β] (k : α → β) (l : List α) (p : β) :
    (isortK k l).filter (fun z => decide (k z = p))
      = l.filter (fun z => decide (k z = p)) := by
  have := isortAux_filter k l p [] List.Pairwise.nil
  simpa [isortK] using this

/-! ### getAllQuestions (GET): join row shape and row-to-entity aggregation

`GQRow` is one row of the big join query of getAllQuestions.ts (question
columns, left-joined option columns, `fqt.position AS questionPosition`,
`qo.position AS optionPosition`, `f.id AS form_id`).  The aggregation loop
builds `questionsMap` keyed by `questionId`; since the keys are numeric,
`Object.values` enumerates them in ascending numeric order (ECMAScript
integer-index key ordering), which we model by a key sort of the assoc list. -/

structure GQRow where
  questionId : Nat
  description : String
  question_type : String
  required : Bool
  question_text : String
  optionId : Option Nat
  optionDescription : Option String
  optionPosition : Option Int
  questionPosition : Option Int
  form_id : Nat
deriving DecidableEq

structure GOption where
  optionId : Nat
  optionDescription : Option String
  position : Option Int
deriving DecidableEq

structure GQuestion where
  questionId : Nat
  description : String
  question_type : String
  required : Bool
  question_text : String
  options : List GOption
  position : Option Int
deriving DecidableEq

/-- The numeric coercion JS applies to a SQL NULL inside the comparator
`(a, b) => a.position - b.position`: `null` becomes `0`. -/
def posVal : Option Int → Int
  | none => 0
  | some v => v

/-- Sort key of the per-question options sort. -/
def optionKey (o : GOption) : Int := posVal o.position

/-- Sort key of the final questions sort. -/
def questionKey (q : GQuestion) : Int := posVal q.position

/-- Key of an entry of the `questionsMap` assoc list. -/
def entryKey (e : Nat × GQuestion) : Nat := e.1

/-- First sight of a question key: the parent entity, with an empty options
list, built from that row. -/
def mkGQuestion (r : GQRow) : GQuestion :=
  ⟨r.questionId, r.description, r.question_type, r.required, r.question_text,
    [], r.questionPosition⟩

def mkGOption (r : GQRow) : GOption :=
  ⟨r.optionId.getD 0, r.optionDescription, r.optionPosition⟩

/-- `questionsMap[qId].options.push(...)`: append the option to the entry with
the given key. -/
def pushOption (m : List (Nat × GQuestion)) (id : Nat) (o : GOption) :
    List (Nat × GQuestion) :=
  m.map (fun e =>
    if e.1 = id then (e.1, { e.2 with options := e.2.options ++ [o] }) else e)

/-- `if (!questionsMap[qId]) questionsMap[qId] = {...}`: materialize the
parent with an empty child list on first sight of its key. -/
def insertIfNew (m : List (Nat × GQuestion)) (r : GQRow) : List (Nat × GQuestion) :=
  if (m.find? (fun e => e.1 == r.questionId)).isSome then m
  else m ++ [(r.questionId, mkGQuestion r)]

/-- The aggregation loop of getAllQuestions over the ordered join rows. -/
def buildMap : List GQRow → List (Nat × GQuestion) → List (Nat × GQuestion)
  | [], m => m
  | r :: rest, m =>
    buildMap rest
      (if natTruthy r.optionId
       then pushOption (insertIfNew m r) r.questionId (mkGOption r)
       else insertIfNew m r)

/-- `options: question.options?.sort((a, b) => a.position - b.position) || []`. -/
def sortOptionsOfQ (q : GQuestion) : GQuestion :=
  { q with options := isortK optionKey q.options }

/-- The full row-to-entity aggregation of getAllQuestions:
build `questionsMap`, take `Object.values` (ascending numeric key order),
sort every options list by position, then sort questions by position; both
sorts stable. -/
def groupQuestions (rows : List GQRow) : List GQuestion :=
  isortK questionKey
    (((isortK entryKey (buildMap rows [])).map (fun e => e.2)).map sortOptionsOfQ)

/-- All options contributed to question `qid` by the rows, in arrival order
(exactly the pushes the loop performs for that key). -/
def collectOptions (rows : List GQRow) (qid : Nat) : List GOption :=
  (rows.filter (fun r => r.questionId == qid)).filterMap
    (fun r => if natTruthy r.optionId then some (mkGOption r) else none)

/-- Reference recursion describing the entries `buildMap` appends for keys not
seen before, in first-sight order. -/
def newEntries : List GQRow → List Nat → List (Nat × GQuestion)
  | [], _ => []
  | r :: rest, seen =>
    if r.questionId ∈ seen then newEntries rest seen
    else (r.questionId,
           { mkGQuestion r with options := collectOptions (r :: rest) r.questionId })
         :: newEntries rest (r.questionId :: seen)

/-- Scalar (non-children) fields of an output question. -/
def qScalars (q : GQuestion) : Nat × String × String × Bool × String × Option Int :=
  (q.questionId, q.description, q.question_type, q.required, q.question_text, q.position)

/-- Scalar fields a row contributes to its parent question. -/
def rScalars (r : GQRow) : Nat × String × String × Bool × String × Option Int :=
  (r.questionId, r.description, r.question_type, r.required, r.question_text,
    r.questionPosition)

theorem insertIfNew_mem (m : List (Nat × GQuestion)) (r : GQRow)
    (h : r.questionId ∈ m.map (fun e => e.1)) : insertIfNew m r = m := by
  unfold insertIfNew
  rw [if_pos]
  rw [List.find?_isSome]
  rcases List.mem_map.mp h with ⟨e, he, hk⟩
  exact ⟨e, he, by simpa using hk⟩

theorem insertIfNew_not_mem (m : List (Nat × GQuestion)) (r : GQRow)
    (h : r.questionId ∉ m.map (fun e => e.1)) :
    insertIfNew m r = m ++ [(r.questionId, mkGQuestion r)] := by
  unfold insertIfNew
  rw [if_neg]
  intro hc
  rcases List.find?_isSome.mp hc with ⟨e, he, hk⟩
  exact h (List.mem_map.mpr ⟨e, he, by simpa using hk⟩)

theorem pushOption_keys (m : List (Nat × GQuestion)) (id : Nat) (o : GOption) :
    (pushOption m id o).map (fun e => e.1) = m.map (fun e => e.1) := by
  unfold pushOption
  rw [List.map_map]
  apply List.map_congr_left
  intro e he
  by_cases h : e.1 = id <;> simp [h]

theorem pushOption_no_key (m : List (Nat × GQuestion)) (i : Nat) (o : GOption)
    (h : i ∉ m.map (fun e => e.1)) : pushOption m i o = m := by
  have hpt : ∀ e ∈ m,
      (if e.1 = i then (e.1, { e.2 with options := e.2.options ++ [o] }) else e) = e := by
    intro e he
    have : e.1 ≠ i := fun hc => h (hc ▸ List.mem_map_of_mem _ he)
    simp [this]
  rw [pushOption, List.map_congr_left hpt]
  simp

theorem pushOption_append (m1 m2 : List (Nat × GQuestion)) (id : Nat) (o : GOption) :
    pushOption (m1 ++ m2) id o = pushOption m1 id o ++ pushOption m2 id o := by
  simp [pushOption]

theorem collectOptions_cons (r : GQRow) (rest : List GQRow) (qid : Nat) :
    collectOptions (r :: rest) qid
      = (if r.questionId = qid then
           (if natTruthy r.optionId then [mkGOption r] else []) else [])
        ++ collectOptions rest qid := by
  unfold collectOptions
  rw [List.filter_cons]
  by_cases h : r.questionId = qid
  · rw [if_pos (by simpa using h), List.filterMap_cons]
    by_cases ht : natTruthy r.optionId <;> simp [ht, h]
  · rw [if_neg (by simpa using h)]
    simp [h]

theorem newEntries_seen_congr : ∀ (rows : List GQRow) (s1 s2 : List Nat),
    (∀ x, x ∈ s1 ↔ x ∈ s2) → newEntries rows s1 = newEntries rows s2 := by
  intro rows
  induction rows with
  | nil => intro s1 s2 h; rfl
  | cons r rest ih =>
    intro s1 s2 h
    unfold newEntries
    by_cases hm : r.questionId ∈ s1
    · rw [if_pos hm, if_pos ((h _).mp hm)]
      exact ih _ _ h
    · rw [if_neg hm, if_neg (fun hc => hm ((h _).mpr hc))]
      rw [ih (r.questionId :: s1) (r.questionId :: s2)
            (fun x => by simp [List.mem_cons, h x])]

theorem collectOptions_cons_ne (r : GQRow) (rest : List GQRow) (qid : Nat)
    (h : r.questionId ≠ qid) :
    collectOptions (r :: rest) qid = collectOptions rest qid := by
  rw [collectOptions_cons, if_neg h, List.nil_append]

theorem collectOptions_cons_self_true (r : GQRow) (rest : List GQRow)
    (h : natTruthy r.optionId = true) :
    collectOptions (r :: rest) r.questionId
      = mkGOption r :: collectOptions rest r.questionId := by
  rw [collectOptions_cons, if_pos rfl, if_pos h, List.singleton_append]

theorem collectOptions_cons_self_false (r : GQRow) (rest : List GQRow)
    (h : ¬ natTruthy r.optionId = true) :
    collectOptions (r :: rest) r.questionId = collectOptions rest r.questionId := by
  rw [collectOptions_cons, if_pos rfl, if_neg h, List.nil_append]

/-- Full characterization of the aggregation loop: existing entries get the
options their rows contribute appended in arrival order, and unseen keys
produce the first-sight entries described by `newEntries`. -/
theorem buildMap_eq : ∀ (rows : List GQRow) (m : List (Nat × GQuestion)),
    buildMap rows m
      = m.map (fun e => (e.1, { e.2 with options := e.2.options ++ collectOptions rows e.1 }))
        ++ newEntries rows (m.map (fun e => e.1)) := by
  intro rows
  induction rows with
  | nil =>
    intro m
    have h1 : ∀ e ∈ m,
        (e.1, { e.2 with options := e.2.options ++ collectOptions ([] : List GQRow) e.1 })
          = e := by
      intro e he
      show (e.1, { e.2 with options := e.2.options ++ [] }) = e
      rw [List.append_nil]
    show m = _
    rw [List.map_congr_left h1]
    simp [newEntries]
  | cons r rest ih =>
    intro m
    have hstep : buildMap (r :: rest) m
        = buildMap rest
            (if natTruthy r.optionId
             then pushOption (insertIfNew m r) r.questionId (mkGOption r)
             else insertIfNew m r) := by
      simp only [buildMap]
    have hne : newEntries (r :: rest) (m.map (fun e => e.1))
        = if r.questionId ∈ m.map (fun e => e.1)
          then newEntries rest (m.map (fun e => e.1))
          else (r.questionId,
                 { mkGQuestion r with options := collectOptions (r :: rest) r.questionId })
               :: newEntries rest (r.questionId :: m.map (fun e => e.1)) := by
      simp only [newEntries]
    by_cases hmem : r.questionId ∈ m.map (fun e => e.1)
    · rw [hstep, insertIfNew_mem m r hmem, hne, if_pos hmem]
      by_cases hop : natTruthy r.optionId
      · rw [if_pos hop, ih, pushOption_keys]
        congr 1
        unfold pushOption
        rw [List.map_map]
        apply List.map_congr_left
        intro e he
        by_cases hk : e.1 = r.questionId
        · simp only [Function.comp, if_pos hk, hk]
          rw [collectOptions_cons_self_true r rest hop]
          simp [List.append_assoc]
        · simp only [Function.comp, if_neg hk]
          rw [collectOptions_cons_ne r rest e.1 (fun hc => hk hc.symm)]
      · rw [if_neg hop, ih]
        congr 1
        apply List.map_congr_left
        intro e he
        by_cases hk : e.1 = r.questionId
        · rw [hk, collectOptions_cons_self_false r rest hop]
        · rw [collectOptions_cons_ne r rest e.1 (fun hc => hk hc.symm)]
    · rw [hstep, insertIfNew_not_mem m r hmem, hne, if_neg hmem]
      have hmapm : ∀ e ∈ m,
          (e.1, { e.2 with options := e.2.options ++ collectOptions rest e.1 })
            = (e.1, { e.2 with options := e.2.options ++ collectOptions (r :: rest) e.1 }) := by
        intro e he
        have hk : r.questionId ≠ e.1 := fun hc => hmem (hc ▸ List.mem_map_of_mem _ he)
        rw [collectOptions_cons_ne r rest e.1 hk]
      have hseen : ∀ x, x ∈ (m.map (fun e => e.1)) ++ [r.questionId]
          ↔ x ∈ r.questionId :: m.map (fun e => e.1) := by
        intro x; simp [List.mem_append, List.mem_cons, or_comm]
      by_cases hop : natTruthy r.optionId
      · rw [if_pos hop, pushOption_append, pushOption_no_key m _ _ hmem]
        have hsingle : pushOption [(r.questionId, mkGQuestion r)] r.questionId (mkGOption r)
            = [(r.questionId, { mkGQuestion r with options := [mkGOption r] })] := by
          simp [pushOption, mkGQuestion]
        rw [hsingle, ih, List.map_append, List.map_append]
        have hkeys : List.map (fun (e : Nat × GQuestion) => e.1)
            [(r.questionId, { mkGQuestion r with options := [mkGOption r] })]
              = [r.questionId] := rfl
        rw [hkeys, newEntries_seen_congr rest _ _ hseen, List.map_congr_left hmapm]
        rw [show collectOptions (r :: rest) r.questionId
              = mkGOption r :: collectOptions rest r.questionId
            from collectOptions_cons_self_true r rest hop]
        simp [List.append_assoc]
      · rw [if_neg hop, ih, List.map_append, List.map_append]
        have hkeys : List.map (fun (e : Nat × GQuestion) => e.1)
            [(r.questionId, mkGQuestion r)] = [r.questionId] := rfl
        rw [hkeys, newEntries_seen_congr rest _ _ hseen, List.map_congr_left hmapm]
        rw [show collectOptions (r :: rest) r.questionId = collectOptions rest r.questionId
            from collectOptions_cons_self_false r rest hop]
        simp [List.append_assoc, mkGQuestion]

/-- Every entry `newEntries` produces: its key was unseen, its scalar fields
come from the first row carrying that key, and its options are exactly the
options those rows contribute in arrival order. -/
theorem newEntries_spec : ∀ (rows : List GQRow) (seen : List Nat),
    ∀ e ∈ newEntries rows seen,
      e.1 ∉ seen ∧
      ∃ r0, rows.find? (fun r => r.questionId == e.1) = some r0 ∧
        e.2 = { mkGQuestion r0 with options := collectOptions rows e.1 } := by
  intro rows
  induction rows with
  | nil => intro seen e he; simp [newEntries] at he
  | cons r rest ih =>
    intro seen e he
    simp only [newEntries] at he
    by_cases hm : r.questionId ∈ seen
    · rw [if_pos hm] at he
      obtain ⟨hnot, r0, hfind, heq⟩ := ih seen e he
      have hne : e.1 ≠ r.questionId := fun hc => hnot (hc ▸ hm)
      refine ⟨hnot, r0, ?_, ?_⟩
      · rw [List.find?_cons_of_neg _ (by simpa using fun hc => hne hc.symm)]
        exact hfind
      · rw [collectOptions_cons_ne r rest e.1 (fun hc => hne hc.symm)]
        exact heq
    · rw [if_neg hm] at he
      rcases List.mem_cons.mp he with rfl | he2
      · refine ⟨hm, r, ?_, rfl⟩
        exact List.find?_cons_of_pos _ (by simp)
      · obtain ⟨hnot, r0, hfind, heq⟩ := ih _ e he2
        have hne : e.1 ≠ r.questionId := fun hc => hnot (hc ▸ List.mem_cons_self _ _)
        refine ⟨fun hc => hnot (List.mem_cons_of_mem _ hc), r0, ?_, ?_⟩
        · rw [List.find?_cons_of_neg _ (by simpa using fun hc => hne hc.symm)]
          exact hfind
        · rw [collectOptions_cons_ne r rest e.1 (fun hc => hne hc.symm)]
          exact heq

theorem newEntries_keys_nodup : ∀ (rows : List GQRow) (seen : List Nat),
    ((newEntries rows seen).map (fun e => e.1)).Nodup := by
  intro rows
  induction rows with
  | nil => intro seen; simp [newEntries]
  | cons r rest ih =>
    intro seen
    simp only [newEntries]
    by_cases hm : r.questionId ∈ seen
    · rw [if_pos hm]; exact ih seen
    · rw [if_neg hm, List.map_cons]
      refine List.nodup_cons.mpr ⟨?_, ih _⟩
      intro hc
      rcases List.mem_map.mp hc with ⟨e, he, hk⟩
      have hnot := (newEntries_spec rest _ e he).1
      exact hnot (by rw [hk]; exact List.mem_cons_self _ _)

theorem newEntries_key_mem : ∀ (rows : List GQRow) (seen : List Nat) (i : Nat),
    (∃ e ∈ newEntries rows seen, e.1 = i) ↔ (i ∉ seen ∧ ∃ r ∈ rows, r.questionId = i) := by
  intro rows
  induction rows with
  | nil => intro seen i; simp [newEntries]
  | cons r rest ih =>
    intro seen i
    simp only [newEntries]
    by_cases hm : r.questionId ∈ seen
    · rw [if_pos hm, ih seen i]
      constructor
      · rintro ⟨hnot, r2, hr2, hk⟩
        exact ⟨hnot, r2, List.mem_cons_of_mem _ hr2, hk⟩
      · rintro ⟨hnot, r2, hr2, hk⟩
        rcases List.mem_cons.mp hr2 with rfl | hr3
        · exact absurd (hk ▸ hm) hnot
        · exact ⟨hnot, r2, hr3, hk⟩
    · rw [if_neg hm]
      constructor
      · rintro ⟨e, he, hk⟩
        rcases List.mem_cons.mp he with rfl | he2
        · exact ⟨hk ▸ hm, r, List.mem_cons_self _ _, hk⟩
        · obtain ⟨hnot, r2, hr2, hk2⟩ := (ih _ i).mp ⟨e, he2, hk⟩
          exact ⟨fun hc => hnot (List.mem_cons_of_mem _ hc), r2,
            List.mem_cons_of_mem _ hr2, hk2⟩
      · rintro ⟨hnot, r2, hr2, hk⟩
        by_cases hi : r.questionId = i
        · exact ⟨(r.questionId,
              { mkGQuestion r with options := collectOptions (r :: rest) r.questionId }),
            List.mem_cons_self _ _, hi⟩
        · rcases List.mem_cons.mp hr2 with rfl | hr3
          · exact absurd hk hi
          · have : i ∉ r.questionId :: seen := by
              intro hc
              rcases List.mem_cons.mp hc with rfl | hc2
              · exact hi rfl
              · exact hnot hc2
            obtain ⟨e, he, hke⟩ := (ih (r.questionId :: seen) i).mpr ⟨this, r2, hr3, hk⟩
            exact ⟨e, List.mem_cons_of_mem _ he, hke⟩

/-- With an empty initial map the loop produces exactly the first-sight
entries. -/
theorem buildMap_nil_eq (rows : List GQRow) : buildMap rows [] = newEntries rows [] := by
  have := buildMap_eq rows []
  simpa using this

theorem buildMap_entry (rows : List GQRow) :
    ∀ e ∈ buildMap rows [],
      ∃ r0, rows.find? (fun r => r.questionId == e.1) = some r0 ∧
        e.2 = { mkGQuestion r0 with options := collectOptions rows e.1 } := by
  intro e he
  rw [buildMap_nil_eq] at he
  exact (newEntries_spec rows [] e he).2

theorem buildMap_entry_fst (rows : List GQRow) :
    ∀ e ∈ buildMap rows [], e.2.questionId = e.1 := by
  intro e he
  obtain ⟨r0, hfind, he2⟩ := buildMap_entry rows e he
  have h1 : r0.questionId = e.1 := by simpa using List.find?_some hfind
  rw [he2]
  exact h1

theorem buildMap_keys_nodup (rows : List GQRow) :
    ((buildMap rows []).map (fun e => e.1)).Nodup := by
  rw [buildMap_nil_eq]
  exact newEntries_keys_nodup rows []

theorem buildMap_key_mem (rows : List GQRow) (i : Nat) :
    (∃ e ∈ buildMap rows [], e.1 = i) ↔ ∃ r ∈ rows, r.questionId = i := by
  rw [buildMap_nil_eq]
  rw [newEntries_key_mem rows [] i]
  simp

/-- C6 (amended): for every input row sequence the row-to-entity aggregation
of getAllQuestions produces parents sorted ascending by their position field
(`questionKey`, NULL coerced to 0 by the JS comparator) — but parents with
equal position are ordered by ascending questionId, the `Object.values`
integer-key enumeration order, NOT by arrival order; each parent's children
are sorted ascending by the child position field (`optionKey`) with
equal-position children kept in arrival order (stable sort, the filter
equation against `collectOptions`); a parent is materialized with an empty
child list on first sight of its key (scalar fields from the first row with
that key — the `find?` conjunct — its children exactly the options its rows
contribute, and one parent per distinct key). -/
theorem groupQuestions_spec (rows : List GQRow) :
    List.Pairwise (fun a b => questionKey a ≤ questionKey b) (groupQuestions rows)
    ∧ (∀ p : Int, List.Pairwise (fun a b => a.questionId < b.questionId)
        ((groupQuestions rows).filter (fun q => decide (questionKey q = p))))
    ∧ (∀ q ∈ groupQuestions rows,
        List.Pairwise (fun a b => optionKey a ≤ optionKey b) q.options
        ∧ (∀ p : Int, q.options.filter (fun o => decide (optionKey o = p))
            = (collectOptions rows q.questionId).filter (fun o => decide (optionKey o = p)))
        ∧ ∃ r0, rows.find? (fun r => r.questionId == q.questionId) = some r0
            ∧ qScalars q = rScalars r0)
    ∧ ((groupQuestions rows).map (fun q => q.questionId)).Nodup
    ∧ (∀ i : Nat, (∃ q ∈ groupQuestions rows, q.questionId = i)
        ↔ ∃ r ∈ rows, r.questionId = i) := by
  have hfst : ∀ e ∈ isortK entryKey (buildMap rows []), e.2.questionId = e.1 := by
    intro e he
    exact buildMap_entry_fst rows e ((isortK_perm entryKey _).mem_iff.mp he)
  have hkeysnodup :
      ((isortK entryKey (buildMap rows [])).map (fun e => e.1)).Nodup :=
    (buildMap_keys_nodup rows).perm
      (((isortK_perm entryKey (buildMap rows [])).map (fun e => e.1)).symm)
  have hpw_lt : List.Pairwise (fun e1 e2 : Nat × GQuestion => e1.1 < e2.1)
      (isortK entryKey (buildMap rows [])) := by
    have hle := isortK_sorted entryKey (buildMap rows [])
    have hne : List.Pairwise (fun e1 e2 : Nat × GQuestion => e1.1 ≠ e2.1)
        (isortK entryKey (buildMap rows [])) := List.pairwise_map.mp hkeysnodup
    exact (hle.and hne).imp (fun h => lt_of_le_of_ne h.1 h.2)
  have hpw_svals : List.Pairwise (fun a b : GQuestion => a.questionId < b.questionId)
      (((isortK entryKey (buildMap rows [])).map (fun e => e.2)).map sortOptionsOfQ) := by
    rw [List.pairwise_map, List.pairwise_map]
    refine List.Pairwise.imp_of_mem ?_ hpw_lt
    intro a b ha hb hab
    show a.2.questionId < b.2.questionId
    rw [hfst a ha, hfst b hb]
    exact hab
  refine ⟨?_, ?_, ?_, ?_, ?_⟩
  · unfold groupQuestions
    exact isortK_sorted questionKey _
  · intro p
    unfold groupQuestions
    rw [isortK_filter]
    exact hpw_svals.filter _
  · intro q hq
    unfold groupQuestions at hq
    have hq1 : q ∈ ((isortK entryKey (buildMap rows [])).map (fun e => e.2)).map
        sortOptionsOfQ := (isortK_perm questionKey _).mem_iff.mp hq
    rcases List.mem_map.mp hq1 with ⟨v, hv, rfl⟩
    rcases List.mem_map.mp hv with ⟨e, he, rfl⟩
    have hebm : e ∈ buildMap rows [] := (isortK_perm entryKey _).mem_iff.mp he
    obtain ⟨r0, hfind, he2⟩ := buildMap_entry rows e hebm
    have hqid : (sortOptionsOfQ e.2).questionId = e.1 := hfst e he
    have hopts : (sortOptionsOfQ e.2).options = isortK optionKey (collectOptions rows e.1) := by
      show isortK optionKey e.2.options = _
      rw [he2]
    refine ⟨?_, ?_, r0, ?_, ?_⟩
    · rw [hopts]
      exact isortK_sorted optionKey _
    · intro p
      rw [hopts, hqid]
      exact isortK_filter optionKey _ p
    · rw [hqid]
      exact hfind
    · rw [show (sortOptionsOfQ e.2) = sortOptionsOfQ e.2 from rfl, he2]
      rfl
  · unfold groupQuestions
    have h1 : ((((isortK entryKey (buildMap rows [])).map (fun e => e.2)).map
          sortOptionsOfQ).map (fun q => q.questionId))
        = (isortK entryKey (buildMap rows [])).map (fun e => e.1) := by
      rw [List.map_map, List.map_map]
      exact List.map_congr_left (fun e he => hfst e he)
    have h2 := hkeysnodup
    rw [← h1] at h2
    exact h2.perm (((isortK_perm questionKey _).map (fun q => q.questionId)).symm)
  · intro i
    unfold groupQuestions
    constructor
    · rintro ⟨q, hq, hqi⟩
      have hq1 := (isortK_perm questionKey _).mem_iff.mp hq
      rcases List.mem_map.mp hq1 with ⟨v, hv, rfl⟩
      rcases List.mem_map.mp hv with ⟨e, he, rfl⟩
      have hebm : e ∈ buildMap rows [] := (isortK_perm entryKey _).mem_iff.mp he
      have hei : e.1 = i := by
        rw [← hfst e he]
        exact hqi
      exact (buildMap_key_mem rows i).mp ⟨e, hebm, hei⟩
    · intro hr
      obtain ⟨e, hebm, hei⟩ := (buildMap_key_mem rows i).mpr hr
      have he : e ∈ isortK entryKey (buildMap rows []) :=
        (isortK_perm entryKey _).mem_iff.mpr hebm
      refine ⟨sortOptionsOfQ e.2, ?_, ?_⟩
      · apply (isortK_perm questionKey _).mem_iff.mpr
        exact List.mem_map.mpr ⟨e.2, List.mem_map.mpr ⟨e, he, rfl⟩, rfl⟩
      · show (sortOptionsOfQ e.2).questionId = i
        rw [show (sortOptionsOfQ e.2).questionId = e.2.questionId from rfl, hfst e he]
        exact hei

/-! ### getAllQuestions (GET): the SQL join and the handler -/

def gqOptionRows (s : Store) (f : FormRow) (fqt : FormQuestionTranslationRow)
    (qt : QuestionTranslationRow) (q : QuestionRow) : List GQRow :=
  (s.question_options.filter (fun qo => qo.question_id == q.id)).flatMap (fun qo =>
    let qots := s.question_option_translations.filter (fun qot => qot.option_id == qo.id)
    if qots.isEmpty then
      [⟨q.id, q.description, q.question_type, q.required, qt.question_text,
        some qo.id, none, qo.position, fqt.position, f.id⟩]
    else
      qots.map (fun qot =>
        ⟨q.id, q.description, q.question_type, q.required, qt.question_text,
          some qo.id, some qot.option_text, qo.position, fqt.position, f.id⟩))

/-- The join of getAllQuestions.ts before `ORDER BY`: forms of the user and
category, their translation in the language, linked question translations,
questions, and left-joined options with their translations. -/
def gqJoinRowsUnsorted (s : Store) (userId : Nat) (formType formLanguage : String) :
    List GQRow :=
  (s.forms.filter (fun f => f.user_id == userId && f.category == formType)).flatMap (fun f =>
  (s.form_translations.filter (fun ft =>
      ft.form_id == f.id && ft.language == formLanguage)).flatMap (fun ft =>
  (s.form_question_translations.filter (fun fqt =>
      fqt.form_translation_id == ft.id)).flatMap (fun fqt =>
  (s.question_translations.filter (fun qt =>
      qt.id == fqt.question_translation_id)).flatMap (fun qt =>
  (s.questions.filter (fun q => q.id == qt.question_id)).flatMap (fun q =>
    let optRows := gqOptionRows s f fqt qt q
    if optRows.isEmpty then
      [⟨q.id, q.description, q.question_type, q.required, qt.question_text,
        none, none, none, fqt.position, f.id⟩]
    else optRows)))))

/-- NULLS-first ascending comparison of a nullable int column (MSSQL sorts
NULL first on `ORDER BY ... ASC`). -/
def nullsFirstLe : Option Int → Option Int → Bool
  | none, _ => true
  | some _, none => false
  | some a, some b => a ≤ b

/-- `ORDER BY fqt.position, qo.position`. -/
def gqRowLe (a b : GQRow) : Bool :=
  if a.questionPosition = b.questionPosition then
    nullsFirstLe a.optionPosition b.optionPosition
  else nullsFirstLe a.questionPosition b.questionPosition

def insertLe {α : Type} (le : α → α → Bool) (x : α) : List α → List α
  | [] => [x]
  | y :: ys => if le y x then y :: insertLe le x ys else x :: y :: ys

/-- A deterministic refinement of the SQL `ORDER BY` (SQL fixes no order
between tied rows). -/
def sortByLe {α : Type} (le : α → α → Bool) (l : List α) : List α :=
  l.foldl (fun acc x => insertLe le x acc) []

def gqJoinRows (s : Store) (userId : Nat) (formType formLanguage : String) : List GQRow :=
  sortByLe gqRowLe (gqJoinRowsUnsorted s userId formType formLanguage)

structure GetAllQuestionsResult where
  status : Nat
  form_id : Option Nat
  questions : Option (List GQuestion)
  error : Option String
deriving DecidableEq

/-- getAllQuestions (GET, src/functions/getAllQuestions.ts).  Read-only:
validates the three query parameters, 404 when the user is missing, 404 when
the join yields zero rows, otherwise 200 with the aggregated questions. -/
def getAllQuestions (s : Store) (username formLanguage formType : Option String) :
    GetAllQuestionsResult :=
  if !strTruthy username || !strTruthy formLanguage || !strTruthy formType then
    ⟨400, none, none,
      some "username, formLanguage, and formType are required query parameters"⟩
  else
    let users := s.users.filter (fun u => u.email == username.getD "")
    if users.isEmpty then ⟨404, none, none, some "User not found"⟩
    else
      let userId := (users.headD ⟨0, ""⟩).id
      let rows := gqJoinRows s userId (formType.getD "") (formLanguage.getD "")
      if rows.isEmpty then
        ⟨404, none, none, some "No questions found for the specified criteria"⟩
      else
        ⟨200, some ((rows.headD ⟨0, "", "", false, "", none, none, none, none, 0⟩).form_id),
          some (groupQuestions rows), none⟩

/-! ### getResponse (GET) -/

structure RQRow where
  question_id : Nat
  question_text : String
  answer_text : Option String
  selected_options : Option String
  file_url : Option String
  position : Option Int
deriving DecidableEq

/-- The questions-with-answers join of getResponse: every question of the
form (through its translations) left-joined with the answer of this
response, ordered by `fqt.position`. -/
def responseQuestionRows (s : Store) (rid fid : Nat) : List RQRow :=
  s.questions.flatMap (fun q =>
    (s.question_translations.filter (fun qt => qt.question_id == q.id)).flatMap (fun qt =>
      (s.form_question_translations.filter (fun fqt =>
          fqt.question_translation_id == qt.id)).flatMap (fun fqt =>
        (s.form_translations.filter (fun ft =>
            fqt.form_translation_id == ft.id && ft.form_id == fid)).flatMap (fun _ft =>
          let ans := s.answers.filter (fun a =>
            a.question_id == q.id && a.response_id == rid)
          if ans.isEmpty then
            [⟨q.id, qt.question_text, none, none, none, fqt.position⟩]
          else
            ans.map (fun a =>
              ⟨q.id, qt.question_text, a.answer_text, a.selected_options,
                a.file_url, fqt.position⟩)))))

structure QuestionAnswerOut where
  question_id : Nat
  question_text : String
  answer_text : Option String
  selected_options : Option (List String)
  file_url : Option String
deriving DecidableEq

/-- The row mapping of getResponse: `answer_text || undefined`, split of the
stored selected options, `file_url || undefined`. -/
def mkQuestionAnswerOut (r : RQRow) : QuestionAnswerOut :=
  ⟨r.question_id, r.question_text, jsFalsyStrToNull r.answer_text,
    readSelectedOptions r.selected_options, jsFalsyStrToNull r.file_url⟩

structure GetResponseResult where
  status : Nat
  response_id : Option Nat
  submitted_at : Option String
  form_id : Option Nat
  questions : Option (List QuestionAnswerOut)
  error : Option String
deriving DecidableEq

/-- getResponse (GET): 400 on a falsy `response_id`, 404 when no response row
matches, otherwise 200 with the (possibly empty) ordered question list. -/
def getResponse (s : Store) (responseId : Option Nat) : GetResponseResult :=
  if !natTruthy responseId then
    ⟨400, none, none, none, none, some "response_id is required"⟩
  else
    let rs := s.responses.filter (fun r => r.id == responseId.getD 0)
    if rs.isEmpty then ⟨404, none, none, none, none, some "Response not found"⟩
    else
      let r := rs.headD ⟨0, 0, ""⟩
      ⟨200, some r.id, some r.submitted_at, some r.form_id,
        some ((sortByLe (fun a b => nullsFirstLe a.position b.position)
          (responseQuestionRows s (responseId.getD 0) r.form_id)).map mkQuestionAnswerOut),
        none⟩

/-! ### createResponse (POST) -/

structure AnswerData where
  question_id : Option Nat
  answer_text : Option String
  selected_options : Option (List String)
  file_url : Option String
deriving DecidableEq

structure CreateResponseReq where
  form_id : Option Nat
  answers : Option (List AnswerData)
deriving DecidableEq

structure CreateResponseResult where
  status : Nat
  response_id : Option Nat
  error : Option String
  store : Store
deriving DecidableEq

/-- The answer-validation query of createResponse: the question exists and
reaches `form_id` through its translations and linking rows. -/
def questionInForm (s : Store) (qid fid : Nat) : Bool :=
  s.questions.any (fun q =>
    q.id == qid &&
    s.question_translations.any (fun qt =>
      qt.question_id == q.id &&
      s.form_question_translations.any (fun fqt =>
        fqt.question_translation_id == qt.id &&
        s.form_translations.any (fun ft =>
          fqt.form_translation_id == ft.id && ft.form_id == fid))))

/-- The per-answer loop of createResponse.  An error exit rolls the
transaction back: the result carries the initial store `s0`.  (The real 404
message interpolates the offending question id; the text is modeled fixed.) -/
def answersLoop (s0 : Store) (fid rid : Nat) :
    List AnswerData → Store → Except CreateResponseResult Store
  | [], s => .ok s
  | a :: rest, s =>
    if !natTruthy a.question_id then
      .error ⟨400, none, some "Each answer must include a question_id", s0⟩
    else if !questionInForm s (a.question_id.getD 0) fid then
      .error ⟨404, none, some "Question not found or does not belong to the form", s0⟩
    else
      answersLoop s0 fid rid rest
        { s with answers := s.answers ++
            [⟨rid, a.question_id.getD 0, jsFalsyStrToNull a.answer_text,
              storeSelectedOptions a.selected_options, jsFalsyStrToNull a.file_url⟩] }

/-- createResponse (POST).  Every statement runs inside one transaction; each
error exit issues a rollback, so the initial store is returned unchanged.
(The submission timestamp is modeled as a constant.) -/
def createResponse (s0 : Store) (r : CreateResponseReq) : CreateResponseResult :=
  if !natTruthy r.form_id || r.answers.isNone then
    ⟨400, none, some "form_id and answers array are required", s0⟩
  else if (s0.forms.filter (fun f => f.id == r.form_id.getD 0)).isEmpty then
    ⟨404, none, some "Form not found", s0⟩
  else
    match answersLoop s0 (r.form_id.getD 0) s0.nextId (r.answers.getD [])
        { s0 with
            responses := s0.responses ++ [⟨s0.nextId, r.form_id.getD 0, "now"⟩],
            nextId := s0.nextId + 1 } with
    | .error res => res
    | .ok s2 => ⟨201, some s0.nextId, none, s2⟩

/-! ### createQuestion (POST, src/functions/createQuestion.ts) -/

structure QuestionData where
  description : Option String
  question_type : Option String
  required : Option Bool
  question_text : Option String
  image_urls : Option (List String)
deriving DecidableEq

structure OptionData where
  description : Option String
  language : Option String
deriving DecidableEq

structure CreateQuestionReq where
  username : Option String
  form_type : Option String
  form_language : Option String
  question : Option QuestionData
  options : Option (List OptionData)
deriving DecidableEq

structure CreateQuestionResult where
  status : Nat
  question_id : Option Nat
  error : Option String
  store : Store
deriving DecidableEq

/-- `ISNULL(MAX(x), 0)` over the non-NULL values of a column slice. -/
def maxOrZero : List Int → Int
  | [] => 0
  | x :: xs => xs.foldl max x

/-- The question-position query of createQuestion: maximum `q.position` over
the questions linked (through their translations) to the form translation. -/
def maxQuestionPos (s : Store) (ftId : Nat) : Int :=
  maxOrZero ((s.questions.filter (fun q =>
    s.question_translations.any (fun qt => qt.question_id == q.id &&
      s.form_question_translations.any (fun fqt =>
        fqt.question_translation_id == qt.id &&
          fqt.form_translation_id == ftId)))).filterMap (fun q => q.position))

/-- The option-position query of createQuestion. -/
def maxOptionPos (s : Store) (qid : Nat) : Int :=
  maxOrZero ((s.question_options.filter (fun qo => qo.question_id == qid)).filterMap
    (fun qo => qo.position))

/-- The option loop of createQuestion: validate each option, insert the
option row with the next position and its translation row. -/
def cqOptionsLoop (s0 : Store) (qid : Nat) :
    List OptionData → Store → Int → Except CreateQuestionResult (Store × Int)
  | [], s, pos => .ok (s, pos)
  | o :: rest, s, pos =>
    if !strTruthy o.description || !strTruthy o.language then
      .error ⟨400, none, some "Each option must include description and language", s0⟩
    else
      cqOptionsLoop s0 qid rest
        { s with
            question_options := s.question_options ++ [⟨s.nextId, qid, some (pos + 1)⟩],
            question_option_translations := s.question_option_translations ++
              [⟨s.nextId, o.language.getD "", o.description.getD ""⟩],
            nextId := s.nextId + 1 }
        (pos + 1)

/-- createQuestion (POST, current version): validates, resolves user, form and
form translation, computes the next question position from `MAX(q.position)`
and stores it on the `questions` row, inserts the translation and options,
and finally inserts the `form_question_translations` linking row WITHOUT a
position.  Error exits roll the transaction back (initial store returned). -/
def createQuestion (s0 : Store) (r : CreateQuestionReq) : CreateQuestionResult :=
  if !strTruthy r.username || !strTruthy r.form_type || !strTruthy r.form_language
      || r.question.isNone then
    ⟨400, none, some "username, form_type, form_language and question are required", s0⟩
  else
    let qd := r.question.getD ⟨none, none, none, none, none⟩
    if !strTruthy qd.description || !strTruthy qd.question_type
        || !strTruthy qd.question_text then
      ⟨400, none, some "question must include description, question_type and question_text", s0⟩
    else if qd.question_type == some "radio_image"
        && (qd.image_urls.isNone || (qd.image_urls.getD []).isEmpty) then
      ⟨400, none, some "radio_image questions must include image_urls array", s0⟩
    else
      match s0.users.filter (fun u => u.email == r.username.getD "") with
      | [] => ⟨404, none, some "User not found", s0⟩
      | u :: _ =>
        match s0.forms.filter (fun f =>
            f.user_id == u.id && f.category == r.form_type.getD "") with
        | [] => ⟨404, none, some "Form not found for given user and form type", s0⟩
        | f :: _ =>
          match s0.form_translations.filter (fun ft =>
              ft.form_id == f.id && ft.language == r.form_language.getD "") with
          | [] => ⟨404, none, some "Form translation not found for the provided language", s0⟩
          | ft :: _ =>
            let qPos := maxQuestionPos s0 ft.id + 1
            let qid := s0.nextId
            let s1 := { s0 with
              questions := s0.questions ++
                [(⟨qid, qd.description.getD "", qd.question_type.getD "",
                  qd.required.getD false, some qPos,
                  qd.image_urls.map jsonEncodeList⟩ : QuestionRow)],
              nextId := s0.nextId + 1 }
            let qtid := s1.nextId
            let s2 := { s1 with
              question_translations := s1.question_translations ++
                [(⟨qtid, qid, r.form_language.getD "",
                  qd.question_text.getD ""⟩ : QuestionTranslationRow)],
              nextId := s1.nextId + 1 }
            match (match r.options with
                   | none => Except.ok (s2, (0 : Int))
                   | some opts => cqOptionsLoop s0 qid opts s2 (maxOptionPos s2 qid)) with
            | .error res => res
            | .ok (s3, _) =>
              ⟨201, some qid, none,
                { s3 with form_question_translations :=
                    s3.form_question_translations ++ [⟨ft.id, qtid, none⟩] }⟩

/-! ### editQuestion (PUT) -/

structure TranslationEdit where
  translation_id : Option Nat
  question_text : String
deriving DecidableEq

structure EditQuestionReq where
  question_id : Option Nat
  description : Option String
  position : Option Int
  question_type : Option String
  required : Option Bool
  image_urls : Option (List String)
  translations : Option (List TranslationEdit)
deriving DecidableEq

structure EditResult where
  status : Nat
  message : Option String
  error : Option String
  store : Store
  queries : Nat
deriving DecidableEq

/-- Whether the dynamically built `SET` clause of editQuestion is non-empty
(each field is included iff it is `!== undefined` in the body). -/
def hasUpdateFields (r : EditQuestionReq) : Bool :=
  r.description.isSome || r.position.isSome || r.question_type.isSome ||
    r.required.isSome || r.image_urls.isSome

/-- Apply the provided fields of the UPDATE to one `questions` row. -/
def applyQuestionUpdate (r : EditQuestionReq) (q : QuestionRow) : QuestionRow :=
  { q with
      description := r.description.getD q.description,
      position := match r.position with | some p => some p | none => q.position,
      question_type := r.question_type.getD q.question_type,
      required := r.required.getD q.required,
      image_urls := match r.image_urls with
        | some us => some (jsonEncodeList us)
        | none => q.image_urls }

/-- The translations loop of editQuestion.  NOTE: runs outside any
transaction; a validation failure returns immediately with the store as
updated so far (`queries` counts the UPDATE statements executed). -/
def editTransLoop : List TranslationEdit → Store → Nat → Except EditResult (Store × Nat)
  | [], s, k => .ok (s, k)
  | t :: ts, s, k =>
    if !natTruthy t.translation_id then
      .error ⟨400, none, some "translation_id is required for each translation", s, k⟩
    else
      editTransLoop ts
        { s with question_translations := s.question_translations.map (fun row =>
            if row.id == t.translation_id.getD 0 then
              { row with question_text := t.question_text }
            else row) }
        (k + 1)

/-- editQuestion (PUT).  No transaction is opened: the question UPDATE (if
any field is present) runs directly on the pool, then each translation UPDATE
runs separately; an error between them leaves earlier updates applied. -/
def editQuestion (s0 : Store) (r : EditQuestionReq) : EditResult :=
  if !natTruthy r.question_id then
    ⟨400, none, some "question_id is required", s0, 0⟩
  else
    let s1 := if hasUpdateFields r then
        { s0 with questions := s0.questions.map (fun q =>
            if q.id == r.question_id.getD 0 then applyQuestionUpdate r q else q) }
      else s0
    let k1 := if hasUpdateFields r then 1 else 0
    match r.translations with
    | none => ⟨200, some "Question updated successfully", none, s1, k1⟩
    | some ts =>
      if ts.isEmpty then ⟨200, some "Question updated successfully", none, s1, k1⟩
      else
        match editTransLoop ts s1 k1 with
        | .error res => res
        | .ok (s2, k2) => ⟨200, some "Question updated successfully", none, s2, k2⟩

/-! ### addQuestionTranslation (POST) -/

structure OptionTranslationData where
  option_id : Option Nat
  option_text : Option String
deriving DecidableEq

structure AddQTReq where
  question_id : Option Nat
  language : Option String
  question_text : Option String
  form_type : Option String
  options : Option (List OptionTranslationData)
deriving DecidableEq

structure AddQTResult where
  status : Nat
  message : Option String
  question_translation_id : Option Nat
  error : Option String
  store : Store
  queries : Nat
deriving DecidableEq

/-- The option-translations loop of addQuestionTranslation (validation,
ownership check, duplicate check, insert); error exits roll back to `s0`.
(The real 404/409 messages interpolate ids; the texts are modeled fixed.) -/
def aqtOptionsLoop (s0 : Store) (qid : Nat) (lang : String) :
    List OptionTranslationData → Store → Nat → Except AddQTResult (Store × Nat)
  | [], s, k => .ok (s, k)
  | o :: rest, s, k =>
    if !natTruthy o.option_id || !strTruthy o.option_text then
      .error ⟨400, none, none,
        some "Each option translation must include option_id and option_text", s0, k⟩
    else if (s.question_options.filter (fun qo =>
        qo.id == o.option_id.getD 0 && qo.question_id == qid)).isEmpty then
      .error ⟨404, none, none,
        some "Option not found or does not belong to the question", s0, k + 1⟩
    else if !(s.question_option_translations.filter (fun qot =>
        qot.option_id == o.option_id.getD 0 && qot.language == lang)).isEmpty then
      .error ⟨409, none, none,
        some "A translation for this option in this language already exists", s0, k + 2⟩
    else
      aqtOptionsLoop s0 qid lang rest
        { s with question_option_translations := s.question_option_translations ++
            [⟨o.option_id.getD 0, lang, o.option_text.getD ""⟩] }
        (k + 3)

/-- addQuestionTranslation (POST): field validation, then language and
form_type whitelists — all BEFORE any database statement (`queries` counts
executed statements) — then inside a transaction: question existence check
(404), duplicate (question_id, language) check (409, rollback, store
unchanged), insert, option translations, optional linking row, commit. -/
def addQuestionTranslation (s0 : Store) (r : AddQTReq) : AddQTResult :=
  if !natTruthy r.question_id || !strTruthy r.language || !strTruthy r.question_text
      || !strTruthy r.form_type then
    ⟨400, none, none,
      some "question_id, language, question_text, and form_type are required", s0, 0⟩
  else if r.language.getD "" != "en" && r.language.getD "" != "es" then
    ⟨400, none, none, some "language must be either en or es", s0, 0⟩
  else if r.form_type.getD "" != "custom" && r.form_type.getD "" != "flash"
      && r.form_type.getD "" != "touchup" then
    ⟨400, none, none, some "form_type must be either custom, flash, or touchup", s0, 0⟩
  else if (s0.questions.filter (fun q => q.id == r.question_id.getD 0)).isEmpty then
    ⟨404, none, none, some "Question not found", s0, 1⟩
  else if !(s0.question_translations.filter (fun qt =>
      qt.question_id == r.question_id.getD 0
        && qt.language == r.language.getD "")).isEmpty then
    ⟨409, none, none, some "A translation for this language already exists", s0, 2⟩
  else
    let qtid := s0.nextId
    let s1 := { s0 with
      question_translations := s0.question_translations ++
        [⟨qtid, r.question_id.getD 0, r.language.getD "", r.question_text.getD ""⟩],
      nextId := s0.nextId + 1 }
    match (match r.options with
           | none => Except.ok (s1, 3)
           | some opts =>
             aqtOptionsLoop s0 (r.question_id.getD 0) (r.language.getD "") opts s1 3) with
    | .error res => res
    | .ok (s2, k2) =>
      match s2.form_translations.filter (fun ft =>
          s2.forms.any (fun f => ft.form_id == f.id && f.category == r.form_type.getD "")
            && ft.language == r.language.getD "") with
      | [] => ⟨201, some "Question translation added successfully", some qtid, none, s2, k2 + 1⟩
      | ft :: _ =>
        ⟨201, some "Question translation added successfully", some qtid, none,
          { s2 with form_question_translations :=
              s2.form_question_translations ++ [⟨ft.id, qtid, none⟩] }, k2 + 2⟩

/-! ### config/db.ts: the memoized connection pool -/

structure Pool where
  id : Nat
deriving DecidableEq

/-- The settled state of the module-level `poolPromise`: `none` before the
first call, afterwards the settled outcome of the first connect attempt (the
`.catch` handler re-throws, so a rejection stays cached, and the variable is
never reset to `null`). -/
abbrev PoolState := Option (Except String Pool)

/-- One `getPool()` call: reuse the cached promise when present, otherwise
run the connect attempt and cache its outcome — success or failure alike.
The third component records whether a new connection attempt was made. -/
def getPool (state : PoolState) (connect : Unit → Except String Pool) :
    Except String Pool × PoolState × Bool :=
  match state with
  | some r => (r, some r, false)
  | none =>
    let r := connect ()
    (r, some r, true)

/-- A sequence of later `getPool` calls, each with its own connect behaviour
(so the store may well be reachable again for some of them). -/
def runGetPoolCalls (state : PoolState) :
    List (Unit → Except String Pool) → List (Except String Pool × Bool) × PoolState
  | [] => ([], state)
  | c :: cs =>
    (((getPool state c).1, (getPool state c).2.2)
        :: (runGetPoolCalls (getPool state c).2.1 cs).1,
      (runGetPoolCalls (getPool state c).2.1 cs).2)

/-! ### Claim theorems -/

/-- Store for the C1 run: user a@b.com owns a "flash" form with an "en"
translation and the form has no questions yet (prior max position is 0). -/
def c1Store : Store :=
  ⟨[⟨1, "a@b.com"⟩], [⟨10, 1, "flash"⟩], [⟨20, 10, "en"⟩], [], [], [], [], [], [], [], 100⟩

def c1Req : CreateQuestionReq :=
  ⟨some "a@b.com", some "flash", some "en",
    some ⟨some "d", some "text", none, some "Q1?", none⟩, none⟩

/-- C1: against a form whose prior maximum question position is 0, a valid
createQuestion call succeeds (201, id 100) and stores position 0 + 1 = 1 on
the `questions` row — but the `form_question_translations` linking row is
inserted WITHOUT a position, and getAllQuestions reports `fqt.position`, so
the question read back with the same username/formLanguage/formType carries a
NULL position, not the claimed prior-max-plus-one. -/
theorem createQuestion_position_not_read_back :
    (createQuestion c1Store c1Req).status = 201
    ∧ (createQuestion c1Store c1Req).question_id = some 100
    ∧ maxQuestionPos c1Store 20 = 0
    ∧ ((createQuestion c1Store c1Req).store.questions.map (fun q => q.position)) = [some 1]
    ∧ (getAllQuestions (createQuestion c1Store c1Req).store
        (some "a@b.com") (some "en") (some "flash")).status = 200
    ∧ ((getAllQuestions (createQuestion c1Store c1Req).store
          (some "a@b.com") (some "en") (some "flash")).questions).map
        (List.map (fun q => q.position)) = some [none]
    ∧ ((getAllQuestions (createQuestion c1Store c1Req).store
          (some "a@b.com") (some "en") (some "flash")).questions).map
        (List.map (fun q => q.position))
      ≠ some [some (maxQuestionPos c1Store 20 + 1)] := by decide

/-- Store for the C2 run: one question row with description "old". -/
def c2Store : Store :=
  ⟨[], [], [], [⟨1, "old", "text", false, none, none⟩], [], [], [], [], [], [], 50⟩

/-- editQuestion body: updates the description AND lists one translation that
is missing its `translation_id`. -/
def c2Req : EditQuestionReq :=
  ⟨some 1, some "new", none, none, none, none, some [⟨none, "t"⟩]⟩

/-- C2: editQuestion runs its statements outside any transaction; when the
translations loop hits a translation without `translation_id` AFTER the
question UPDATE was already executed, the handler returns the 400 error with
the question row already overwritten and performs no rollback — a strict
subset of the intended updates stays applied. -/
theorem editQuestion_error_leaves_update_applied :
    (editQuestion c2Store c2Req).status = 400
    ∧ (editQuestion c2Store c2Req).queries = 1
    ∧ (editQuestion c2Store c2Req).store.questions
        = [⟨1, "new", "text", false, none, none⟩]
    ∧ (editQuestion c2Store c2Req).store ≠ c2Store := by decide

/-- Two join rows with EQUAL question positions whose questionIds arrive in
descending order: arrival order is [5, 3]. -/
def c6RowA : GQRow := ⟨5, "a", "text", false, "A", none, none, none, some 1, 7⟩

def c6RowB : GQRow := ⟨3, "b", "text", false, "B", none, none, none, some 1, 7⟩

/-- C6 counterexample: the two parents tie on position and arrive as [5, 3],
yet the aggregation outputs them as [3, 5] — `Object.values` enumerates the
numeric keys in ascending order, so equal-position parents are NOT ordered by
arrival order as the claim states. -/
theorem groupQuestions_not_arrival_order :
    posVal c6RowA.questionPosition = posVal c6RowB.questionPosition
    ∧ [c6RowA, c6RowB].map (fun r => r.questionId) = [5, 3]
    ∧ (groupQuestions [c6RowA, c6RowB]).map (fun q => q.questionId) = [3, 5]
    ∧ (groupQuestions [c6RowA, c6RowB]).map (fun q => q.questionId)
        ≠ [c6RowA, c6RowB].map (fun r => r.questionId) := by decide

/-- Witness for C6: the amended theorem applied to the concrete rows above,
at the concrete output parent with key 3. -/
theorem groupQuestions_spec_witness :
    List.Pairwise (fun a b => optionKey a ≤ optionKey b)
        (⟨3, "b", "text", false, "B", [], some 1⟩ : GQuestion).options
    ∧ (∀ p : Int,
        (⟨3, "b", "text", false, "B", [], some 1⟩ : GQuestion).options.filter
            (fun o => decide (optionKey o = p))
          = (collectOptions [c6RowA, c6RowB]
              (⟨3, "b", "text", false, "B", [], some 1⟩ : GQuestion).questionId).filter
              (fun o => decide (optionKey o = p)))
    ∧ ∃ r0, [c6RowA, c6RowB].find? (fun r =>
          r.questionId == (⟨3, "b", "text", false, "B", [], some 1⟩ : GQuestion).questionId)
        = some r0
        ∧ qScalars (⟨3, "b", "text", false, "B", [], some 1⟩ : GQuestion) = rScalars r0 :=
  (groupQuestions_spec [c6RowA, c6RowB]).2.2.1 _ (by decide)

/-- C9: the `selected_options` round trip between createResponse (comma join)
and getResponse (comma split): exact for a non-empty list of non-empty
comma-free labels; a label containing a comma comes back as more options than
were stored; an empty list is stored as "" and read back as an absent field,
as is an absent field. -/
theorem selected_options_roundtrip :
    (∀ l : List String, l ≠ [] → (∀ x ∈ l, x.data ≠ [] ∧ ',' ∉ x.data) →
        readSelectedOptions (storeSelectedOptions (some l)) = some l)
    ∧ (∀ l : List String, (∃ x ∈ l, ',' ∈ x.data) →
        ∃ l2, readSelectedOptions (storeSelectedOptions (some l)) = some l2
          ∧ l.length < l2.length)
    ∧ readSelectedOptions (storeSelectedOptions (some [])) = none
    ∧ readSelectedOptions (storeSelectedOptions none) = none :=
  ⟨fun l => (readSelectedOptions_store l).1, fun l => (readSelectedOptions_store l).2,
    rfl, rfl⟩

/-- Witness for C9 at concrete lists. -/
theorem selected_options_roundtrip_witness :
    readSelectedOptions (storeSelectedOptions (some ["ab", "cd"])) = some ["ab", "cd"]
    ∧ ∃ l2, readSelectedOptions (storeSelectedOptions (some ["a,b"])) = some l2
        ∧ (1 : Nat) < l2.length := by
  refine ⟨selected_options_roundtrip.1 ["ab", "cd"] (by decide) (by decide), ?_⟩
  obtain ⟨l2, h1, h2⟩ := selected_options_roundtrip.2.1 ["a,b"] ⟨"a,b", by decide, by decide⟩
  exact ⟨l2, h1, by simpa using h2⟩

theorem runGetPoolCalls_cached (res : Except String Pool) :
    ∀ cs : List (Unit → Except String Pool),
      (∀ out ∈ (runGetPoolCalls (some res) cs).1, out = (res, false))
      ∧ (runGetPoolCalls (some res) cs).2 = some res := by
  intro cs
  induction cs with
  | nil =>
    refine ⟨?_, rfl⟩
    intro out h
    simp [runGetPoolCalls] at h
  | cons c cs ih =>
    constructor
    · intro out hout
      simp only [runGetPoolCalls, getPool] at hout
      rcases List.mem_cons.mp hout with rfl | h2
      · rfl
      · exact ih.1 out h2
    · simp only [runGetPoolCalls, getPool]
      exact ih.2

/-- C8: when the first `getPool` call's connect attempt rejects with error
`e`, the rejected promise is cached; every later call — whatever its connect
oracle would do, i.e. even if the store is reachable again — returns the same
error `e` without making a new connection attempt, and the cache still holds
the rejection afterwards. -/
theorem getPool_memoizes_failure (e : String) (c0 : Unit → Except String Pool)
    (cs : List (Unit → Except String Pool)) (h : c0 () = Except.error e) :
    (getPool none c0).1 = Except.error e
    ∧ (getPool none c0).2.2 = true
    ∧ (getPool none c0).2.1 = some (Except.error e)
    ∧ (∀ out ∈ (runGetPoolCalls (getPool none c0).2.1 cs).1,
        out = (Except.error e, false))
    ∧ (runGetPoolCalls (getPool none c0).2.1 cs).2 = some (Except.error e) := by
  have h1 : getPool none c0 = (Except.error e, some (Except.error e), true) := by
    simp [getPool, h]
  rw [h1]
  exact ⟨rfl, rfl, rfl, (runGetPoolCalls_cached (Except.error e) cs).1,
    (runGetPoolCalls_cached (Except.error e) cs).2⟩

/-- Witness for C8: a failing first connect, then one call whose connect
would succeed — it still gets the cached rejection without reconnecting. -/
theorem getPool_memoizes_failure_witness :
    (getPool none (fun _ => Except.error "boom")).1 = Except.error "boom"
    ∧ (∀ out ∈ (runGetPoolCalls (getPool none (fun _ => Except.error "boom")).2.1
          [fun _ => Except.ok ⟨1⟩]).1, out = (Except.error "boom", false)) := by
  have h := getPool_memoizes_failure "boom" (fun _ => Except.error "boom")
    [fun _ => Except.ok ⟨1⟩] rfl
  exact ⟨h.1, h.2.2.2.1⟩

/-- `questionInForm` reads only the four schema tables it joins; it is
unaffected by changes to responses, answers or the id counter. -/
theorem questionInForm_congr (s s0 : Store) (qid fid : Nat)
    (h1 : s.questions = s0.questions)
    (h2 : s.question_translations = s0.question_translations)
    (h3 : s.form_question_translations = s0.form_question_translations)
    (h4 : s.form_translations = s0.form_translations) :
    questionInForm s qid fid = questionInForm s0 qid fid := by
  unfold questionInForm
  rw [h1, h2, h3, h4]

/-- If every answer carries a truthy question_id and some answer references a
question not in the form (judged against the pre-transaction store `s0`, whose
four joined tables the loop never modifies), the loop aborts with the 404
rollback result. -/
theorem answersLoop_bad (s0 : Store) (fid rid : Nat) :
    ∀ (l : List AnswerData) (s : Store),
      s.questions = s0.questions →
      s.question_translations = s0.question_translations →
      s.form_question_translations = s0.form_question_translations →
      s.form_translations = s0.form_translations →
      (∀ a ∈ l, natTruthy a.question_id = true) →
      (∃ a ∈ l, questionInForm s0 (a.question_id.getD 0) fid = false) →
      answersLoop s0 fid rid l s
        = .error ⟨404, none, some "Question not found or does not belong to the form", s0⟩ := by
  intro l
  induction l with
  | nil =>
    intro s _ _ _ _ _ hbad
    simp at hbad
  | cons a rest ih =>
    intro s h1 h2 h3 h4 htr hbad
    have hat : natTruthy a.question_id = true := htr a (List.mem_cons_self _ _)
    unfold answersLoop
    rw [if_neg (by simp [hat])]
    by_cases hq : questionInForm s (a.question_id.getD 0) fid
    · rw [if_neg (by simp [hq])]
      refine ih _ ?_ ?_ ?_ ?_ ?_ ?_
      · exact h1
      · exact h2
      · exact h3
      · exact h4
      · exact fun b hb => htr b (List.mem_cons_of_mem _ hb)
      · rcases hbad with ⟨b, hb, hbf⟩
        rcases List.mem_cons.mp hb with rfl | hb2
        · rw [questionInForm_congr s s0 _ fid h1 h2 h3 h4] at hq
          rw [hq] at hbf
          cases hbf
        · exact ⟨b, hb2, hbf⟩
    · rw [if_pos (by simp [hq])]

/-- C3: a createResponse call whose answers all carry a question_id but where
some answer's question does not belong to the given form returns 404 and
leaves the store exactly as it was — the whole creation (response row and any
already inserted answer rows) is rolled back. -/
theorem createResponse_bad_question_rolls_back (s : Store) (r : CreateResponseReq)
    (fid : Nat) (l : List AnswerData)
    (hf : r.form_id = some fid) (hfid : fid ≠ 0) (ha : r.answers = some l)
    (htr : ∀ a ∈ l, natTruthy a.question_id = true)
    (hbad : ∃ a ∈ l, questionInForm s (a.question_id.getD 0) fid = false) :
    (createResponse s r).status = 404 ∧ (createResponse s r).store = s := by
  unfold createResponse
  rw [hf, ha]
  rw [if_neg (by simp [natTruthy, hfid])]
  simp only [Option.getD_some]
  by_cases hform : (s.forms.filter (fun f => f.id == fid)).isEmpty
  · rw [if_pos hform]
    exact ⟨rfl, rfl⟩
  · rw [if_neg hform]
    rw [answersLoop_bad s fid s.nextId l
      { s with responses := s.responses ++ [⟨s.nextId, fid, "now"⟩],
               nextId := s.nextId + 1 }
      rfl rfl rfl rfl htr hbad]
    exact ⟨rfl, rfl⟩

/-- Store for the C3 witness: form 10 exists but has no questions at all. -/
def c3Store : Store := ⟨[], [⟨10, 1, "custom"⟩], [], [], [], [], [], [], [], [], 30⟩

def c3Req : CreateResponseReq := ⟨some 10, some [⟨some 5, some "hi", none, none⟩]⟩

/-- Witness for C3: answer references question 5, which is not a question of
form 10. -/
theorem createResponse_bad_question_rolls_back_witness :
    (createResponse c3Store c3Req).status = 404
    ∧ (createResponse c3Store c3Req).store = c3Store :=
  createResponse_bad_question_rolls_back c3Store c3Req 10 [⟨some 5, some "hi", none, none⟩]
    rfl (by decide) rfl (by decide)
    ⟨⟨some 5, some "hi", none, none⟩, by decide, by decide⟩

/-- C4: an addQuestionTranslation call that passes input validation, whose
question exists, and whose (question_id, language) pair already has a
translation row, returns Conflict (409) with the store unchanged — the
transaction is rolled back before any write, so the pre-existing translation
row is neither overwritten nor duplicated. -/
theorem addQuestionTranslation_conflict (s : Store) (r : AddQTReq) (qid : Nat)
    (lang : String)
    (hq : r.question_id = some qid) (hq0 : qid ≠ 0)
    (hl : r.language = some lang) (hlang : lang = "en" ∨ lang = "es")
    (ht : strTruthy r.question_text = true)
    (hft : r.form_type = some "custom" ∨ r.form_type = some "flash"
      ∨ r.form_type = some "touchup")
    (hex : (s.questions.filter (fun q => q.id == qid)).isEmpty = false)
    (hdup : (s.question_translations.filter (fun qt =>
        qt.question_id == qid && qt.language == lang)).isEmpty = false) :
    (addQuestionTranslation s r).status = 409
    ∧ (addQuestionTranslation s r).store = s := by
  have e1 : natTruthy (some qid) = true := by simp [natTruthy, hq0]
  rcases hlang with rfl | rfl <;> rcases hft with h3 | h3 | h3 <;>
  · unfold addQuestionTranslation
    rw [hq, hl, h3]
    rw [if_neg (by rw [e1, ht]; decide)]
    rw [if_neg (by decide)]
    rw [if_neg (by decide)]
    simp only [Option.getD_some]
    rw [if_neg (by simp [hex])]
    rw [if_pos (by simp [hdup])]
    exact ⟨rfl, rfl⟩

/-- Store for the C4 witness: question 1 already has an "en" translation. -/
def c4Store : Store :=
  ⟨[], [], [], [⟨1, "d", "text", false, some 1, none⟩],
    [⟨40, 1, "en", "Q?"⟩], [], [], [], [], [], 60⟩

def c4Req : AddQTReq := ⟨some 1, some "en", some "otra", some "flash", none⟩

/-- Witness for C4. -/
theorem addQuestionTranslation_conflict_witness :
    (addQuestionTranslation c4Store c4Req).status = 409
    ∧ (addQuestionTranslation c4Store c4Req).store = c4Store :=
  addQuestionTranslation_conflict c4Store c4Req 1 "en" rfl (by decide) rfl (Or.inl rfl)
    (by decide) (Or.inr (Or.inl rfl)) (by decide) (by decide)

/-- C5: the two empty-result behaviours are distinct.  getAllQuestions (GET)
returns 404 whenever the user exists but the filtered join yields zero rows,
while getResponse on an existing response whose form has zero question rows
returns 200 with an empty questions list. -/
theorem empty_results_distinct :
    (∀ (s : Store) (username formLanguage formType : Option String) (u : UserRow)
        (us : List UserRow),
      strTruthy username = true → strTruthy formLanguage = true →
      strTruthy formType = true →
      s.users.filter (fun x => x.email == username.getD "") = u :: us →
      gqJoinRowsUnsorted s u.id (formType.getD "") (formLanguage.getD "") = [] →
      (getAllQuestions s username formLanguage formType).status = 404)
    ∧ (∀ (s : Store) (responseId : Option Nat) (r : ResponseRow) (rs : List ResponseRow),
      natTruthy responseId = true →
      s.responses.filter (fun x => x.id == responseId.getD 0) = r :: rs →
      responseQuestionRows s (responseId.getD 0) r.form_id = [] →
      (getResponse s responseId).status = 200
        ∧ (getResponse s responseId).questions = some []) := by
  constructor
  · intro s username formLanguage formType u us h1 h2 h3 hu hrows
    have hsorted : gqJoinRows s u.id (formType.getD "") (formLanguage.getD "") = [] := by
      unfold gqJoinRows
      rw [hrows]
      rfl
    simp only [getAllQuestions]
    rw [if_neg (by simp [h1, h2, h3]), hu]
    rw [if_neg (by simp)]
    rw [List.headD_cons, hsorted]
    rfl
  · intro s responseId r rs h1 hr hrows
    simp only [getResponse]
    rw [if_neg (by simp [h1]), hr]
    rw [if_neg (by simp)]
    rw [List.headD_cons, hrows]
    exact ⟨rfl, rfl⟩

def c5StoreA : Store := ⟨[⟨1, "a@b.com"⟩], [], [], [], [], [], [], [], [], [], 1⟩

def c5StoreB : Store := ⟨[], [], [], [], [], [], [], [], [⟨5, 10, "t"⟩], [], 20⟩

/-- Witness for C5: a user who owns no matching form rows yields 404 on
getAllQuestions; an existing response whose form has no questions yields 200
with an empty list on getResponse. -/
theorem empty_results_distinct_witness :
    (getAllQuestions c5StoreA (some "a@b.com") (some "en") (some "flash")).status = 404
    ∧ (getResponse c5StoreB (some 5)).status = 200
    ∧ (getResponse c5StoreB (some 5)).questions = some [] := by
  refine ⟨?_, ?_⟩
  · exact empty_results_distinct.1 c5StoreA (some "a@b.com") (some "en") (some "flash")
      ⟨1, "a@b.com"⟩ [] (by decide) (by decide) (by decide) (by decide) (by decide)
  · exact empty_results_distinct.2 c5StoreB (some 5) ⟨5, 10, "t"⟩ []
      (by decide) (by decide) (by decide)

/-- C7: an addQuestionTranslation call whose language field is neither "en"
nor "es" (including an absent language) returns 400 before acquiring the pool
and issues zero database statements, leaving the store untouched. -/
theorem addQuestionTranslation_bad_language (s : Store) (r : AddQTReq)
    (h1 : r.language ≠ some "en") (h2 : r.language ≠ some "es") :
    (addQuestionTranslation s r).status = 400
    ∧ (addQuestionTranslation s r).queries = 0
    ∧ (addQuestionTranslation s r).store = s := by
  unfold addQuestionTranslation
  by_cases hval : (!natTruthy r.question_id || !strTruthy r.language
      || !strTruthy r.question_text || !strTruthy r.form_type) = true
  · rw [if_pos hval]
    exact ⟨rfl, rfl, rfl⟩
  · rw [if_neg hval]
    have hlang : (r.language.getD "" != "en" && r.language.getD "" != "es") = true := by
      cases hL : r.language with
      | none =>
        exfalso
        apply hval
        simp [strTruthy, hL]
      | some lang =>
        simp only [Option.getD_some, Bool.and_eq_true, bne_iff_ne, ne_eq]
        exact ⟨fun hc => h1 (by rw [hL, hc]), fun hc => h2 (by rw [hL, hc])⟩
    rw [if_pos hlang]
    exact ⟨rfl, rfl, rfl⟩

/-- Witness for C7: language "fr". -/
theorem addQuestionTranslation_bad_language_witness :
    (addQuestionTranslation c4Store ⟨some 1, some "fr", some "tx", some "flash", none⟩).status
        = 400
    ∧ (addQuestionTranslation c4Store
        ⟨some 1, some "fr", some "tx", some "flash", none⟩).queries = 0
    ∧ (addQuestionTranslation c4Store
        ⟨some 1, some "fr", some "tx", some "flash", none⟩).store = c4Store :=
  addQuestionTranslation_bad_language c4Store _ (by decide) (by decide)

/-- C10: an editQuestion call whose body has a truthy question_id, none of the
five optional fields, and no translations, executes zero database statements,
leaves every row of the store unchanged, and still returns 200 with
"Question updated successfully" — for every store, in particular one where
question_id matches no existing question. -/
theorem editQuestion_noop (s : Store) (r : EditQuestionReq) (qid : Nat)
    (hq : r.question_id = some qid) (hq0 : qid ≠ 0)
    (hd : r.description = none) (hp : r.position = none) (hqt : r.question_type = none)
    (hr : r.required = none) (hi : r.image_urls = none) (htr : r.translations = none) :
    editQuestion s r = ⟨200, some "Question updated successfully", none, s, 0⟩ := by
  unfold editQuestion
  rw [if_neg (by simp [natTruthy, hq, hq0])]
  have hf : hasUpdateFields r = false := by
    simp [hasUpdateFields, hd, hp, hqt, hr, hi]
  rw [htr, hf]
  rfl

/-- Store for the C10 witness: completely empty — question 1 does not exist. -/
def c10Store : Store := ⟨[], [], [], [], [], [], [], [], [], [], 1⟩

/-- Witness for C10. -/
theorem editQuestion_noop_witness :
    editQuestion c10Store ⟨some 1, none, none, none, none, none, none⟩
      = ⟨200, some "Question updated successfully", none, c10Store, 0⟩ :=
  editQuestion_noop c10Store _ 1 rfl (by decide) rfl rfl rfl rfl rfl rfl

end MobiusForms
